import Mathlib

/-!
Shallow embedding of `src/bus_model.py` (routines `parse_time`,
`scheduled_bus_trips`, `stagger_501`).

Modelling conventions:

* A pandas cell is `Cell := Option String`: `none` is a missing value
  (`NaN`, for which `pd.isna` is true), `some s` a string cell.  The claims
  only concern missing or string-valued cells.
* A row of a `RawScheduleTable` is an association list from column name to
  cell; `rowGet` models `row.get(col)`, which yields `None` when the column
  is absent (pandas `Series.get` default).  A table is a list of rows.
* A Python `datetime` produced by `datetime.combine(base_date, t)` is
  represented by its total minute count `base_date * 1440 + 60 * h + m`,
  where `base_date` is the reference date as a day number.  Comparison,
  `timedelta(days=1)` (`+ 1440`), subtraction in minutes and
  `strftime("%H:%M")` (rendering `x % 1440`) all agree with this
  representation.
* `strptime(s, "%H:%M")` is modelled by `parseHHMM` on the character list,
  following CPython `_strptime`'s regex `(2[0-3]|[0-1]\d|\d):([0-5]\d|\d)`
  with the whole string consumed ("unconverted data remains" otherwise).
  Digits are modelled as ASCII `0`-`9`; `str.strip()` is modelled as
  trimming ASCII whitespace on both ends.
* Travel times are integral minutes (inputs have minute granularity, so
  `(arr - dep).total_seconds() / 60` is an integer and `round(travel, 1)`
  is the identity); `travel_time` is therefore a `Nat`.
* The exceptions of `stagger_501` are modelled by `Option` (`none` is the
  propagated exception): the `ValueError` of the bare `strptime` in the
  shift lambda (no `try`/`except` there), the `KeyError` of reading
  `shifted[col]` when the column is absent, and the `KeyError` of
  `sort_values(by="bus_departure")` when the derived table is empty
  (`pd.DataFrame([])` has no columns at all).  A list of rows carries no
  separate column metadata, so a zero-row table behaves as a table whose
  columns are all present (the CSV-read DataFrame with columns but no
  rows); rows of an actual DataFrame all carry the same column set, which
  is why column absence is tested row by row.
-/

/-- Characters removed by Python `str.strip()` (ASCII whitespace). -/
def isPySpace (c : Char) : Bool :=
  c = ' ' || c = '\t' || c = '\n' || c = '\r' || c = '\x0b' || c = '\x0c'

/-- `str.strip()`: drop leading and trailing whitespace, as a char list. -/
def pyStrip (s : String) : List Char :=
  ((s.data.dropWhile isPySpace).reverse.dropWhile isPySpace).reverse

/-- Python `s[-5:]`: the last five characters (all of them if fewer). -/
def pyLast5 (cs : List Char) : List Char :=
  cs.drop (cs.length - 5)

/-- ASCII digit test, modelling the `\d` of `_strptime`'s regex. -/
def isDigitC (c : Char) : Prop :=
  48 ≤ c.toNat ∧ c.toNat ≤ 57

instance (c : Char) : Decidable (isDigitC c) := by
  unfold isDigitC; infer_instance

/-- Numeric value of a digit character. -/
def digitVal (c : Char) : Nat :=
  c.toNat - 48

/-- The two-digit hour alternative of `%H`: regex `2[0-3]|[0-1]\d`. -/
def valid24 (a b : Char) : Prop :=
  (a.toNat = 50 ∧ isDigitC b ∧ digitVal b ≤ 3) ∨
    (48 ≤ a.toNat ∧ a.toNat ≤ 49 ∧ isDigitC b)

instance (a b : Char) : Decidable (valid24 a b) := by
  unfold valid24; infer_instance

/-- `datetime.strptime(s, "%H:%M")`, returning `(hour, minute)`.
CPython matches `s` against `(2[0-3]|[0-1]\d|\d):([0-5]\d|\d)` and raises
`ValueError` (here `none`) when the match fails or does not consume the
whole string.  The position of `:` determines which alternative applies,
so the match is case analysis on the string shape. -/
def parseHHMM : List Char → Option (Nat × Nat)
  | [a, b, c] =>
    if b = ':' ∧ isDigitC a ∧ isDigitC c then
      some (digitVal a, digitVal c)
    else none
  | [a, b, c, d] =>
    if b = ':' then
      if isDigitC a ∧ isDigitC c ∧ digitVal c ≤ 5 ∧ isDigitC d then
        some (digitVal a, 10 * digitVal c + digitVal d)
      else none
    else if c = ':' then
      if valid24 a b ∧ isDigitC d then
        some (10 * digitVal a + digitVal b, digitVal d)
      else none
    else none
  | [a, b, c, d, e] =>
    if b = ':' then none
    else if c = ':' then
      if valid24 a b ∧ isDigitC d ∧ digitVal d ≤ 5 ∧ isDigitC e then
        some (10 * digitVal a + digitVal b, 10 * digitVal d + digitVal e)
      else none
    else none
  | _ => none

/-- `dt.strftime("%H:%M")` for a datetime at total minute count `x`:
render the time of day `x % 1440` as a zero-padded `HH:MM` string. -/
def renderHM (x : Nat) : String :=
  String.mk [Char.ofNat (48 + x % 1440 / 60 / 10), Char.ofNat (48 + x % 1440 / 60 % 10), ':',
    Char.ofNat (48 + x % 1440 % 60 / 10), Char.ofNat (48 + x % 1440 % 60 % 10)]

/-- `parse_time(tstr, base_date)`: `None` for a missing cell, otherwise
parse the last five characters of the stripped string as `HH:MM` on the
reference date, `None` on `ValueError`.  The returned datetime is its
total minute count `base_date * 1440 + 60 * h + m`. -/
def parse_time (tstr : Option String) (base_date : Nat) : Option Nat :=
  match tstr with
  | none => none
  | some s =>
    (parseHHMM (pyLast5 (pyStrip s))).map
      (fun p => base_date * 1440 + (60 * p.1 + p.2))

/-- A raw table cell: `none` is `NaN`/missing. -/
abbrev Cell := Option String

/-- A raw table row: column name to cell. -/
abbrev Row := List (String × Cell)

/-- `row.get(col)`: the cell under `col`, or missing when the column is
absent (pandas `Series.get` returns `None` then, and `pd.isna(None)` holds,
so an absent column behaves exactly like a missing cell downstream). -/
def rowGet (row : Row) (col : String) : Option String :=
  match row.find? (fun p => p.1 == col) with
  | none => none
  | some p => p.2

/-- One output row of `scheduled_bus_trips`. -/
structure Trip where
  bus_departure : String
  bus_arrival : String
  travel_time : Nat
deriving DecidableEq, Repr

/-- The body of the `for` loop of `scheduled_bus_trips` for one row:
parse both stops, skip (`none`) when either parse fails, advance the
arrival by one day when `arr <= dep`, and build the output record. -/
def deriveRow (stop_from stop_to : String) (base_date : Nat) (row : Row) :
    Option Trip :=
  match parse_time (rowGet row stop_from) base_date,
      parse_time (rowGet row stop_to) base_date with
  | some dep, some arr0 =>
    let arr := if arr0 ≤ dep then arr0 + 1440 else arr0
    some { bus_departure := renderHM dep, bus_arrival := renderHM arr,
           travel_time := arr - dep }
  | _, _ => none

/-- `scheduled_bus_trips(schedule, stop_from, stop_to)`.  The implicit
`datetime.today().date()` is the explicit `base_date` day number. -/
def scheduled_bus_trips (schedule : List Row) (stop_from stop_to : String)
    (base_date : Nat) : List Trip :=
  schedule.filterMap (deriveRow stop_from stop_to base_date)

/-- The shift lambda of `stagger_501` on one cell: a missing value passes
through unchanged (`pd.notna` guard); otherwise
`strptime(str(t).strip()[-5:], "%H:%M") + timedelta(minutes=shift)` is
re-rendered with `strftime("%H:%M")` — time-of-day arithmetic modulo one
day, no date component.  The bare `strptime` raises (`none`) on an
unparsable value. -/
def shiftCell (shift : Int) (cell : Cell) : Option Cell :=
  match cell with
  | none => some none
  | some s =>
    match parseHHMM (pyLast5 (pyStrip s)) with
    | none => none
    | some p =>
      some (some (renderHM ((((60 * p.1 + p.2 : Int) + shift) % 1440).toNat)))

/-- Whether a row carries an entry for column `col`. -/
def rowHasCol (row : Row) (col : String) : Bool :=
  row.any (fun p => p.1 == col)

/-- The per-element work of `shifted[col].apply(...)` restricted to one
row once the column exists: shift every entry under `col`, raising on an
unparsable value. -/
def shiftEntries (shift : Int) (col : String) : Row → Option Row
  | [] => some []
  | p :: rest =>
    match (if p.1 == col then shiftCell shift p.2 else some p.2) with
    | none => none
    | some v =>
      match shiftEntries shift col rest with
      | none => none
      | some r => some ((p.1, v) :: r)

/-- `shifted[col].apply(...)` on one row: reading a column absent from the
table raises `KeyError` (`none`); otherwise the entries under `col` are
shifted. -/
def shiftRowAt (shift : Int) (col : String) (row : Row) : Option Row :=
  if rowHasCol row col then shiftEntries shift col row else none

/-- `shifted[col] = shifted[col].apply(...)`: shift one column of the whole
table; the first unparsable non-missing value raises (`none`). -/
def shiftColumn (shift : Int) (col : String) : List Row → Option (List Row)
  | [] => some []
  | row :: rest =>
    match shiftRowAt shift col row with
    | none => none
    | some r =>
      match shiftColumn shift col rest with
      | none => none
      | some rs => some (r :: rs)

/-- The body of `stagger_501`'s copy loop: `for col in [stop_from, stop_to]:
shifted[col] = shifted[col].apply(...)`. -/
def shiftTable (shift : Int) (stop_from stop_to : String)
    (rows : List Row) : Option (List Row) :=
  match shiftColumn shift stop_from rows with
  | none => none
  | some r1 => shiftColumn shift stop_to r1

/-- The rows contributed by copies `1..k` of `stagger_501` (in increasing
copy order), copy `i` shifted by `i * interval_minutes`. -/
def mkCopies (schedule : List Row) (stop_from stop_to : String)
    (interval_minutes : Int) : Nat → Option (List Row)
  | 0 => some []
  | k + 1 =>
    match mkCopies schedule stop_from stop_to interval_minutes k with
    | none => none
    | some prev =>
      match shiftTable (((k : Int) + 1) * interval_minutes) stop_from stop_to
          schedule with
      | none => none
      | some sh => some (prev ++ sh)

/-- `stagger_501(schedule_501, stop_from, stop_to, interval_minutes,
num_copies)`: original rows plus the shifted copies are concatenated
(`pd.concat`), derived through `scheduled_bus_trips`, and sorted by the
`bus_departure` string ascending.  When no row survives derivation,
`pd.DataFrame(trips)` is a DataFrame with no columns and
`sort_values(by="bus_departure")` raises `KeyError` (`none`).
`sort_values` itself is modelled by `mergeSort`, which agrees with it as a
multiset (and exactly whenever the departure keys are distinct). -/
def stagger_501 (schedule_501 : List Row) (stop_from stop_to : String)
    (interval_minutes : Int) (num_copies : Nat) (base_date : Nat) :
    Option (List Trip) :=
  match mkCopies schedule_501 stop_from stop_to interval_minutes num_copies with
  | none => none
  | some copies =>
    let derived :=
      scheduled_bus_trips (schedule_501 ++ copies) stop_from stop_to base_date
    if derived = [] then none
    else some (List.mergeSort derived
      (fun a b => a.bus_departure ≤ b.bus_departure))

/-! ### Supporting lemmas -/

/-- A successful `strptime` yields an in-range hour and minute. -/
theorem parseHHMM_bound : ∀ {cs : List Char} {p : Nat × Nat},
    parseHHMM cs = some p → p.1 ≤ 23 ∧ p.2 ≤ 59
  | [], p, h => Option.noConfusion h
  | [_], p, h => Option.noConfusion h
  | [_, _], p, h => Option.noConfusion h
  | [a, b, c], p, h => by
    rw [show parseHHMM [a, b, c] =
        (if b = ':' ∧ isDigitC a ∧ isDigitC c then
          some (digitVal a, digitVal c) else none) from rfl] at h
    split_ifs at h with h1
    obtain ⟨-, ha, hc⟩ := h1
    obtain ⟨ha1, ha2⟩ := ha
    obtain ⟨hc1, hc2⟩ := hc
    injection h with h
    subst h
    refine ⟨?_, ?_⟩ <;> simp only [digitVal] <;> omega
  | [a, b, c, d], p, h => by
    rw [show parseHHMM [a, b, c, d] =
        (if b = ':' then
          if isDigitC a ∧ isDigitC c ∧ digitVal c ≤ 5 ∧ isDigitC d then
            some (digitVal a, 10 * digitVal c + digitVal d)
          else none
        else if c = ':' then
          if valid24 a b ∧ isDigitC d then
            some (10 * digitVal a + digitVal b, digitVal d)
          else none
        else none) from rfl] at h
    split_ifs at h with h1 h2 h3 h4
    · obtain ⟨⟨ha1, ha2⟩, ⟨hc1, hc2⟩, hc5, ⟨hd1, hd2⟩⟩ := h2
      injection h with h
      subst h
      refine ⟨?_, ?_⟩ <;> simp only [digitVal] at * <;> omega
    · obtain ⟨hv, hd1, hd2⟩ := h4
      injection h with h
      subst h
      obtain ⟨ha50, ⟨hb1, hb2⟩, hb3⟩ | ⟨ha1, ha2, hb1, hb2⟩ := hv <;>
        refine ⟨?_, ?_⟩ <;> simp only [digitVal] at * <;> omega
  | [a, b, c, d, e], p, h => by
    rw [show parseHHMM [a, b, c, d, e] =
        (if b = ':' then none
        else if c = ':' then
          if valid24 a b ∧ isDigitC d ∧ digitVal d ≤ 5 ∧ isDigitC e then
            some (10 * digitVal a + digitVal b, 10 * digitVal d + digitVal e)
          else none
        else none) from rfl] at h
    split_ifs at h with h1 h2 h3
    obtain ⟨hv, ⟨hd1, hd2⟩, hd5, ⟨he1, he2⟩⟩ := h3
    injection h with h
    subst h
    obtain ⟨ha50, ⟨hb1, hb2⟩, hb3⟩ | ⟨ha1, ha2, hb1, hb2⟩ := hv <;>
      refine ⟨?_, ?_⟩ <;> simp only [digitVal] at * <;> omega
  | _ :: _ :: _ :: _ :: _ :: _ :: _, p, h => Option.noConfusion h

/-- `parse_time` on reference date `d` is the reference-date-`0` result
shifted by `d` days' worth of minutes. -/
theorem parse_time_eq (v : Option String) (d : Nat) :
    parse_time v d = (parse_time v 0).map (fun y => d * 1440 + y) := by
  cases v with
  | none => rfl
  | some s =>
    cases hp : parseHHMM (pyLast5 (pyStrip s)) with
    | none => simp [parse_time, hp]
    | some p => simp [parse_time, hp]

/-- On reference date `0` a parsed instant lies inside the day. -/
theorem parse_time_zero_lt {v : Option String} {y : Nat}
    (h : parse_time v 0 = some y) : y < 1440 := by
  cases v with
  | none => simp [parse_time] at h
  | some s =>
    cases hp : parseHHMM (pyLast5 (pyStrip s)) with
    | none => simp [parse_time, hp] at h
    | some p =>
      have hb := parseHHMM_bound hp
      simp [parse_time, hp] at h
      omega

/-- Whole days do not change the rendered time of day. -/
theorem renderHM_add (d x : Nat) : renderHM (d * 1440 + x) = renderHM x := by
  simp only [renderHM]
  rw [Nat.add_comm (d * 1440) x, Nat.add_mul_mod_self_right]

/-- The per-row derivation does not depend on the reference date. -/
theorem deriveRow_base (f t : String) (d : Nat) (row : Row) :
    deriveRow f t d row = deriveRow f t 0 row := by
  unfold deriveRow
  rw [parse_time_eq (rowGet row f) d, parse_time_eq (rowGet row t) d]
  cases h1 : parse_time (rowGet row f) 0 with
  | none => rfl
  | some a =>
    cases h2 : parse_time (rowGet row t) 0 with
    | none => rfl
    | some b =>
      have ha := parse_time_zero_lt h1
      have hb := parse_time_zero_lt h2
      show (let arr := if d * 1440 + b ≤ d * 1440 + a then d * 1440 + b + 1440
              else d * 1440 + b
            some { bus_departure := renderHM (d * 1440 + a),
                   bus_arrival := renderHM arr,
                   travel_time := arr - (d * 1440 + a) } : Option Trip)
          = (let arr := if b ≤ a then b + 1440 else b
             some { bus_departure := renderHM a, bus_arrival := renderHM arr,
                    travel_time := arr - a })
      simp only [Nat.add_le_add_iff_left]
      by_cases hba : b ≤ a
      · simp only [if_pos hba, Option.some.injEq, Trip.mk.injEq]
        refine ⟨renderHM_add d a, ?_, by omega⟩
        rw [show d * 1440 + b + 1440 = d * 1440 + (b + 1440) from by omega,
          renderHM_add]
      · simp only [if_neg hba, Option.some.injEq, Trip.mk.injEq]
        exact ⟨renderHM_add d a, renderHM_add d b, by omega⟩

/-- The Trip Deriver does not depend on the reference date. -/
theorem scheduled_bus_trips_base (sched : List Row) (f t : String) (d : Nat) :
    scheduled_bus_trips sched f t d = scheduled_bus_trips sched f t 0 := by
  have h : deriveRow f t d = deriveRow f t 0 := funext (deriveRow_base f t d)
  unfold scheduled_bus_trips
  rw [h]

/-- The Stagger Generator does not depend on the reference date. -/
theorem stagger_501_base (sched : List Row) (f t : String) (iv : Int)
    (n d : Nat) :
    stagger_501 sched f t iv n d = stagger_501 sched f t iv n 0 := by
  unfold stagger_501
  cases h : mkCopies sched f t iv n with
  | none => rfl
  | some copies => simp only [scheduled_bus_trips_base]

/-- Rendering a valid hour/minute pair and parsing it back succeeds and
recovers the pair (checked exhaustively over the 1440 minutes of a day). -/
theorem parse_render_all : ∀ h : Nat, h < 24 → ∀ m : Nat, m < 60 →
    parseHHMM (pyLast5 (pyStrip (renderHM (60 * h + m)))) = some (h, m) := by
  decide

/-- Bounds of a parsed instant on reference date `d`. -/
theorem parse_time_bound {v : Option String} {d x : Nat}
    (h : parse_time v d = some x) : d * 1440 ≤ x ∧ x < d * 1440 + 1440 := by
  rw [parse_time_eq v d] at h
  cases h0 : parse_time v 0 with
  | none => rw [h0] at h; cases h
  | some y =>
    have hy := parse_time_zero_lt h0
    rw [h0] at h
    simp only [Option.map_some', Option.some.injEq] at h
    omega

/-- Inversion for a successful per-row derivation. -/
theorem deriveRow_eq_some {f t : String} {d : Nat} {row : Row} {trip : Trip}
    (h : deriveRow f t d row = some trip) :
    ∃ dep arr0, parse_time (rowGet row f) d = some dep ∧
      parse_time (rowGet row t) d = some arr0 ∧
      trip = { bus_departure := renderHM dep,
               bus_arrival := renderHM (if arr0 ≤ dep then arr0 + 1440 else arr0),
               travel_time := (if arr0 ≤ dep then arr0 + 1440 else arr0) - dep } := by
  unfold deriveRow at h
  cases hp1 : parse_time (rowGet row f) d with
  | none => rw [hp1] at h; exact Option.noConfusion h
  | some dep =>
    rw [hp1] at h
    cases hp2 : parse_time (rowGet row t) d with
    | none => rw [hp2] at h; exact Option.noConfusion h
    | some arr0 =>
      rw [hp2] at h
      injection h with h
      exact ⟨dep, arr0, rfl, rfl, h.symm⟩

/-- A cell that fails to parse makes the shift lambda raise. -/
theorem shiftCell_fail {s : String}
    (hbad : parseHHMM (pyLast5 (pyStrip s)) = none) (sh : Int) :
    shiftCell sh (some s) = none := by
  rw [show shiftCell sh (some s)
      = (match parseHHMM (pyLast5 (pyStrip s)) with
         | none => none
         | some p =>
           some (some (renderHM ((((60 * p.1 + p.2 : Int) + sh) % 1440).toNat))))
    from rfl, hbad]

/-- A row holding an unparsable cell under `col` makes the elementwise
shift of that row raise. -/
theorem shiftEntries_fail {col : String} {s : String}
    (hbad : parseHHMM (pyLast5 (pyStrip s)) = none) (sh : Int) :
    ∀ {row : Row}, (col, some s) ∈ row → shiftEntries sh col row = none := by
  intro row
  induction row with
  | nil => intro hmem; exact absurd hmem (List.not_mem_nil _)
  | cons q rest ih =>
    intro hmem
    rcases List.mem_cons.mp hmem with heq | hmem
    · rw [← heq]
      unfold shiftEntries
      rw [show (((col, some s) : String × Cell).1 == col) = true from by simp,
        if_pos rfl]
      rw [shiftCell_fail hbad sh]
    · unfold shiftEntries
      cases hc : (if q.1 == col then shiftCell sh q.2 else some q.2) with
      | none => rfl
      | some v => rw [ih hmem]

/-- A row holding an unparsable cell under `col` makes the column shift of
that row raise (the column is present, so the `KeyError` guard passes and
the `ValueError` of the bad cell surfaces). -/
theorem shiftRowAt_fail {col : String} {s : String}
    (hbad : parseHHMM (pyLast5 (pyStrip s)) = none) (sh : Int)
    {row : Row} (hmem : (col, some s) ∈ row) : shiftRowAt sh col row = none := by
  have hhas : rowHasCol row col = true := by
    unfold rowHasCol
    rw [List.any_eq_true]
    exact ⟨(col, some s), hmem, by simp⟩
  unfold shiftRowAt
  rw [if_pos hhas]
  exact shiftEntries_fail hbad sh hmem

/-- A table holding a row whose shift raises makes the column shift raise. -/
theorem shiftColumn_fail {col : String} {sh : Int} {row : Row}
    (hrow : shiftRowAt sh col row = none) :
    ∀ {rows : List Row}, row ∈ rows → shiftColumn sh col rows = none := by
  intro rows
  induction rows with
  | nil => intro hmem; exact absurd hmem (List.not_mem_nil _)
  | cons r rest ih =>
    intro hmem
    rcases List.mem_cons.mp hmem with heq | hmem
    · unfold shiftColumn
      rw [← heq, hrow]
    · unfold shiftColumn
      cases hr : shiftRowAt sh col r with
      | none => rfl
      | some rr => rw [ih hmem]

/-- A successful column shift shifts each row. -/
theorem shiftColumn_some_mem {col : String} {sh : Int} :
    ∀ {rows rows' : List Row}, shiftColumn sh col rows = some rows' →
    ∀ {row : Row}, row ∈ rows →
    ∃ row' ∈ rows', shiftRowAt sh col row = some row' := by
  intro rows
  induction rows with
  | nil => intro rows' h row hmem; exact absurd hmem (List.not_mem_nil _)
  | cons r rest ih =>
    intro rows' h row hmem
    unfold shiftColumn at h
    cases hr : shiftRowAt sh col r with
    | none => rw [hr] at h; exact Option.noConfusion h
    | some rr =>
      rw [hr] at h
      cases hrest : shiftColumn sh col rest with
      | none => rw [hrest] at h; exact Option.noConfusion h
      | some rs =>
        rw [hrest] at h
        injection h with h
        subst h
        rcases List.mem_cons.mp hmem with heq | hmem
        · exact ⟨rr, List.mem_cons_self _ _, heq ▸ hr⟩
        · obtain ⟨row', hrow', hs⟩ := ih hrest hmem
          exact ⟨row', List.mem_cons_of_mem _ hrow', hs⟩

/-- A successful elementwise shift keeps the entries of the other
columns. -/
theorem shiftEntries_preserve {col : String} {sh : Int} :
    ∀ {row row' : Row}, shiftEntries sh col row = some row' →
    ∀ {p : String × Cell}, p ∈ row → p.1 ≠ col → p ∈ row' := by
  intro row
  induction row with
  | nil => intro row' h p hp; exact absurd hp (List.not_mem_nil _)
  | cons q rest ih =>
    intro row' h p hp hne
    unfold shiftEntries at h
    cases hc : (if q.1 == col then shiftCell sh q.2 else some q.2) with
    | none => rw [hc] at h; exact Option.noConfusion h
    | some v =>
      rw [hc] at h
      cases hr : shiftEntries sh col rest with
      | none => rw [hr] at h; exact Option.noConfusion h
      | some rr =>
        rw [hr] at h
        injection h with h
        subst h
        rcases List.mem_cons.mp hp with heq | hp
        · subst heq
          rw [if_neg (by simpa using hne)] at hc
          injection hc with hc
          subst hc
          exact List.mem_cons_self _ _
        · exact List.mem_cons_of_mem _ (ih hr hp hne)

/-- A successful column shift keeps the entries of the other columns. -/
theorem shiftRowAt_preserve {col : String} {sh : Int} {row row' : Row}
    (h : shiftRowAt sh col row = some row') {p : String × Cell}
    (hp : p ∈ row) (hne : p.1 ≠ col) : p ∈ row' := by
  unfold shiftRowAt at h
  by_cases hhas : rowHasCol row col = true
  · rw [if_pos hhas] at h
    exact shiftEntries_preserve h hp hne
  · rw [if_neg hhas] at h
    exact Option.noConfusion h

/-- A non-missing, unparsable value in the `stop_from` or `stop_to` column
makes the whole copy-shift step raise, for every shift amount. -/
theorem shiftTable_fail {rows : List Row} {f t : String} {row : Row}
    (hmem : row ∈ rows) {c : String} {cell : Cell}
    (hp : (c, cell) ∈ row) (hft : c = f ∨ c = t) {s : String}
    (hcell : cell = some s)
    (hbad : parseHHMM (pyLast5 (pyStrip s)) = none) (sh : Int) :
    shiftTable sh f t rows = none := by
  subst hcell
  unfold shiftTable
  by_cases hpf : c = f
  · subst hpf
    rw [shiftColumn_fail (shiftRowAt_fail hbad sh hp) hmem]
  · have hpt : c = t := hft.resolve_left hpf
    subst hpt
    cases hcol : shiftColumn sh f rows with
    | none => rfl
    | some rows1 =>
      obtain ⟨row', hrow', hshift⟩ := shiftColumn_some_mem hcol hmem
      have hpin : (c, some s) ∈ row' := shiftRowAt_preserve hshift hp hpf
      show shiftColumn sh c rows1 = none
      exact shiftColumn_fail (shiftRowAt_fail hbad sh hpin) hrow'

/-- When every copy-shift raises, building at least one copy raises. -/
theorem mkCopies_fail {sched : List Row} {f t : String} {iv : Int}
    (hfail : ∀ sh : Int, shiftTable sh f t sched = none) :
    ∀ {n : Nat}, 1 ≤ n → mkCopies sched f t iv n = none := by
  intro n hn
  cases n with
  | zero => omega
  | succ k =>
    unfold mkCopies
    cases hk : mkCopies sched f t iv k with
    | none => rfl
    | some prev => rw [hfail (((k : Int) + 1) * iv)]

/-! ### Claims -/

/-- **C1.** For every input row whose departure and arrival cells both
parse, `scheduled_bus_trips` applies the overnight policy with the
non-strict comparison: when the arrival instant is less than or equal to
the departure instant, exactly 24 hours (1440 minutes) are added to the
arrival before the travel time is computed.  In particular departure
`23:50` / arrival `00:10` yields travel time `20.0` minutes, and the equal
pair `08:00` / `08:00` yields `1440.0` minutes, not `0.0` (travel times
are integral minutes, so `round(·, 1)` renders them with a trailing
`.0`). -/
theorem overnight_policy_le :
    (∀ (row : Row) (f t : String) (d dep arr : Nat),
      parse_time (rowGet row f) d = some dep →
      parse_time (rowGet row t) d = some arr →
      arr ≤ dep →
      scheduled_bus_trips [row] f t d =
        [{ bus_departure := renderHM dep, bus_arrival := renderHM (arr + 1440),
           travel_time := arr + 1440 - dep }]) ∧
    (∀ d : Nat, scheduled_bus_trips [[("A", some "23:50"), ("B", some "00:10")]]
      "A" "B" d =
      [{ bus_departure := "23:50", bus_arrival := "00:10", travel_time := 20 }]) ∧
    (∀ d : Nat, scheduled_bus_trips [[("A", some "08:00"), ("B", some "08:00")]]
      "A" "B" d =
      [{ bus_departure := "08:00", bus_arrival := "08:00",
         travel_time := 1440 }]) := by
  refine ⟨?_, ?_, ?_⟩
  · intro row f t d dep arr h1 h2 hle
    unfold scheduled_bus_trips
    rw [List.filterMap_cons, List.filterMap_nil]
    have hd : deriveRow f t d row =
        some { bus_departure := renderHM dep, bus_arrival := renderHM (arr + 1440),
               travel_time := arr + 1440 - dep } := by
      unfold deriveRow
      rw [h1, h2]
      show (some ⟨renderHM dep,
          renderHM (if arr ≤ dep then arr + 1440 else arr),
          (if arr ≤ dep then arr + 1440 else arr) - dep⟩ : Option Trip) = _
      rw [if_pos hle]
    rw [hd]
  · intro d
    rw [scheduled_bus_trips_base]
    decide
  · intro d
    rw [scheduled_bus_trips_base]
    decide

/-- Witness for C1: a concrete overnight row, departing `21:00` on day 0
and arriving `06:30`, derived through the general conjunct. -/
theorem overnight_policy_le_witness :
    scheduled_bus_trips [[("From", some "21:00"), ("To", some "06:30")]]
      "From" "To" 0 =
      [{ bus_departure := renderHM 1260, bus_arrival := renderHM (390 + 1440),
         travel_time := 390 + 1440 - 1260 }] :=
  overnight_policy_le.1 [("From", some "21:00"), ("To", some "06:30")]
    "From" "To" 0 1260 390 (by decide) (by decide) (by decide)

/-- **C2, counterexample.**  The claim says a table lacking the `stop_from`
or `stop_to` column makes `scheduled_bus_trips` fail loudly.  It does not:
`row.get` returns `None` for an absent column, `pd.isna(None)` holds, and
every row is silently skipped; on this concrete one-row table lacking both
columns the call returns the ordinary empty result. -/
theorem missing_column_silent_cx :
    scheduled_bus_trips [[("Other stop", some "08:00")]] "A" "B" 0 = [] := by
  decide

/-- A row whose `stop_from` lookup is missing derives to nothing. -/
theorem deriveRow_none_of_from {f t : String} {d : Nat} {row : Row}
    (hf : rowGet row f = none) : deriveRow f t d row = none := by
  unfold deriveRow
  rw [hf]
  exact rfl

/-- A row whose `stop_to` lookup is missing derives to nothing. -/
theorem deriveRow_none_of_to {f t : String} {d : Nat} {row : Row}
    (ht : rowGet row t = none) : deriveRow f t d row = none := by
  cases h1 : parse_time (rowGet row f) d with
  | none => unfold deriveRow; rw [h1]
  | some dep =>
    unfold deriveRow
    rw [h1, ht]
    exact rfl

/-- **C2, amended.**  If every row of the table lacks the `stop_from`
column or every row lacks the `stop_to` column (in particular when the
table has no such column at all), `scheduled_bus_trips` does not raise:
each lookup in the missing column yields a missing value, every row is
silently dropped exactly like a noisy cell, and the empty table is
returned. -/
theorem missing_column_silent (sched : List Row) (f t : String) (d : Nat)
    (h : (∀ row ∈ sched, rowGet row f = none) ∨
      (∀ row ∈ sched, rowGet row t = none)) :
    scheduled_bus_trips sched f t d = [] := by
  induction sched with
  | nil => rfl
  | cons row rest ih =>
    unfold scheduled_bus_trips
    rw [List.filterMap_cons]
    have hd : deriveRow f t d row = none := by
      rcases h with h | h
      · exact deriveRow_none_of_from (h row (List.mem_cons_self _ _))
      · exact deriveRow_none_of_to (h row (List.mem_cons_self _ _))
    rw [hd]
    refine ih ?_
    rcases h with h | h
    · exact Or.inl fun r hr => h r (List.mem_cons_of_mem _ hr)
    · exact Or.inr fun r hr => h r (List.mem_cons_of_mem _ hr)

/-- Witness for the amended C2: a table lacking both stop columns, and a
table that has `stop_from` but lacks `stop_to`. -/
theorem missing_column_silent_witness :
    scheduled_bus_trips [[("Stop C", some "07:15")], [("Stop C", some "09:45")]]
      "From" "To" 3 = [] ∧
    scheduled_bus_trips [[("From", some "07:15")], [("From", some "09:45")]]
      "From" "To" 3 = [] :=
  ⟨missing_column_silent _ "From" "To" 3 (Or.inl (by decide)),
   missing_column_silent _ "From" "To" 3 (Or.inr (by decide))⟩

/-- **C3, counterexample.**  The claim quantifies over any base table, but
on the empty base table the direct derivation is the empty table while
`stagger_501` with `num_copies = 0` produces no table at all:
`pd.DataFrame([])` has no columns, so `sort_values(by="bus_departure")`
raises `KeyError` (`none`). -/
theorem stagger_zero_copies_cx :
    scheduled_bus_trips [] "A" "B" 0 = [] ∧
    stagger_501 [] "A" "B" 15 0 0 = none := by
  exact ⟨rfl, rfl⟩

/-- **C3, amended.**  On any base table whose direct derivation is
non-empty, `stagger_501` with `num_copies = 0` succeeds and returns
exactly the rows of `scheduled_bus_trips` on that table, as a permutation
(row order may differ only through the final sort).  When the direct
derivation is empty, `stagger_501` instead raises the `sort_values`
`KeyError` (see the counterexample). -/
theorem stagger_zero_copies (sched : List Row) (f t : String) (iv : Int)
    (d : Nat) (hne : scheduled_bus_trips sched f t d ≠ []) :
    ∃ l, stagger_501 sched f t iv 0 d = some l ∧
      l.Perm (scheduled_bus_trips sched f t d) := by
  have h0 : stagger_501 sched f t iv 0 d =
      (if scheduled_bus_trips (sched ++ []) f t d = [] then none
       else some (List.mergeSort (scheduled_bus_trips (sched ++ []) f t d)
         (fun a b => a.bus_departure ≤ b.bus_departure))) := rfl
  rw [List.append_nil] at h0
  rw [h0, if_neg hne]
  exact ⟨_, rfl, List.mergeSort_perm _ _⟩

/-- Witness for the amended C3 on a one-row base table. -/
theorem stagger_zero_copies_witness :
    ∃ l, stagger_501 [[("A", some "08:00"), ("B", some "08:30")]]
        "A" "B" 15 0 0 = some l ∧
      l.Perm (scheduled_bus_trips [[("A", some "08:00"), ("B", some "08:30")]]
        "A" "B" 0) :=
  stagger_zero_copies [[("A", some "08:00"), ("B", some "08:30")]]
    "A" "B" 15 0 (by decide)

/-- **C4.**  `stagger_501` with `interval_minutes = 15` and
`num_copies = 3` on a one-row base table `08:00 → 08:30` produces exactly
four rows with departures `08:00, 08:15, 08:30, 08:45`, arrivals
`08:30, 08:45, 09:00, 09:15`, each with travel time `30.0`, sorted
ascending by departure (the reference date is arbitrary). -/
theorem stagger_15_3_example (d : Nat) :
    stagger_501 [[("A", some "08:00"), ("B", some "08:30")]] "A" "B" 15 3 d =
      some [{ bus_departure := "08:00", bus_arrival := "08:30", travel_time := 30 },
        { bus_departure := "08:15", bus_arrival := "08:45", travel_time := 30 },
        { bus_departure := "08:30", bus_arrival := "09:00", travel_time := 30 },
        { bus_departure := "08:45", bus_arrival := "09:15", travel_time := 30 }] := by
  rw [stagger_501_base]
  have h0 : stagger_501 [[("A", some "08:00"), ("B", some "08:30")]]
      "A" "B" 15 3 0 =
      (if scheduled_bus_trips [[("A", some "08:00"), ("B", some "08:30")],
          [("A", some "08:15"), ("B", some "08:45")],
          [("A", some "08:30"), ("B", some "09:00")],
          [("A", some "08:45"), ("B", some "09:15")]] "A" "B" 0 = [] then none
       else some (List.mergeSort
         (scheduled_bus_trips [[("A", some "08:00"), ("B", some "08:30")],
           [("A", some "08:15"), ("B", some "08:45")],
           [("A", some "08:30"), ("B", some "09:00")],
           [("A", some "08:45"), ("B", some "09:15")]] "A" "B" 0)
         (fun a b => a.bus_departure ≤ b.bus_departure))) := rfl
  have hd : scheduled_bus_trips [[("A", some "08:00"), ("B", some "08:30")],
      [("A", some "08:15"), ("B", some "08:45")],
      [("A", some "08:30"), ("B", some "09:00")],
      [("A", some "08:45"), ("B", some "09:15")]] "A" "B" 0 =
      [{ bus_departure := "08:00", bus_arrival := "08:30", travel_time := 30 },
       { bus_departure := "08:15", bus_arrival := "08:45", travel_time := 30 },
       { bus_departure := "08:30", bus_arrival := "09:00", travel_time := 30 },
       { bus_departure := "08:45", bus_arrival := "09:15", travel_time := 30 }] := by
    decide
  have hsorted : List.Pairwise
      (fun a b : Trip => decide (a.bus_departure ≤ b.bus_departure) = true)
      [{ bus_departure := "08:00", bus_arrival := "08:30", travel_time := 30 },
       { bus_departure := "08:15", bus_arrival := "08:45", travel_time := 30 },
       { bus_departure := "08:30", bus_arrival := "09:00", travel_time := 30 },
       { bus_departure := "08:45", bus_arrival := "09:15", travel_time := 30 }] := by
    refine List.Pairwise.cons ?_ (List.Pairwise.cons ?_ (List.Pairwise.cons ?_
      (List.pairwise_singleton _ _))) <;>
      intro b hb <;>
      simp only [List.mem_cons, List.mem_singleton, List.not_mem_nil,
        or_false] at hb
    · rcases hb with rfl | rfl | rfl <;>
        exact decide_eq_true (String.le_iff_toList_le.mpr (by decide))
    · rcases hb with rfl | rfl <;>
        exact decide_eq_true (String.le_iff_toList_le.mpr (by decide))
    · rcases hb with rfl
      exact decide_eq_true (String.le_iff_toList_le.mpr (by decide))
  rw [h0, hd, if_neg (List.cons_ne_nil _ _), List.mergeSort_of_sorted hsorted]

/-- **C5.**  `parse_time` is total on missing-or-string inputs: a missing
value yields `None`; otherwise it yields either a valid instant (an
in-range hour/minute on the reference date) or `None`; in particular every
`strptime` failure on the last five characters of the trimmed string
yields `None`, including the out-of-range-hour and out-of-range-minute
shapes. -/
theorem parse_time_total :
    (∀ d : Nat, parse_time none d = none) ∧
    (∀ (s : String) (d : Nat), parse_time (some s) d = none ∨
      ∃ h m : Nat, h < 24 ∧ m < 60 ∧
        parse_time (some s) d = some (d * 1440 + (60 * h + m))) ∧
    (∀ (s : String) (d : Nat), parseHHMM (pyLast5 (pyStrip s)) = none →
      parse_time (some s) d = none) ∧
    (∀ (s : String) (d : Nat) (a b c e : Char),
      pyLast5 (pyStrip s) = [a, b, ':', c, e] →
      isDigitC a → isDigitC b → isDigitC c → isDigitC e →
      24 ≤ 10 * digitVal a + digitVal b ∨ 60 ≤ 10 * digitVal c + digitVal e →
      parse_time (some s) d = none) := by
  refine ⟨fun d => rfl, ?_, ?_, ?_⟩
  · intro s d
    cases hp : parseHHMM (pyLast5 (pyStrip s)) with
    | none => left; simp [parse_time, hp]
    | some p =>
      obtain ⟨hh, hm⟩ := parseHHMM_bound hp
      right
      exact ⟨p.1, p.2, by omega, by omega, by simp [parse_time, hp]⟩
  · intro s d h
    simp [parse_time, h]
  · intro s d a b c e hlast ha hb hc he hout
    have hbad : parseHHMM (pyLast5 (pyStrip s)) = none := by
      rw [hlast]
      rw [show parseHHMM [a, b, ':', c, e] =
          (if b = ':' then none
           else if (':' : Char) = ':' then
             if valid24 a b ∧ isDigitC c ∧ digitVal c ≤ 5 ∧ isDigitC e then
               some (10 * digitVal a + digitVal b, 10 * digitVal c + digitVal e)
             else none
           else none) from rfl]
      have hbne : ¬(b = ':') := by
        obtain ⟨hb1, hb2⟩ := hb
        intro hcon
        rw [hcon] at hb2
        revert hb2
        decide
      rw [if_neg hbne, if_pos rfl, if_neg]
      rintro ⟨hv, -, hc5, -⟩
      obtain ⟨ha1, ha2⟩ := ha
      obtain ⟨hb1, hb2⟩ := hb
      obtain ⟨hc1, hc2⟩ := hc
      obtain ⟨he1, he2⟩ := he
      rcases hout with hh | hm
      · rcases hv with ⟨ha50, ⟨hbb1, hbb2⟩, hb3⟩ | ⟨haa1, haa2, hbb1, hbb2⟩ <;>
          simp only [digitVal] at * <;> omega
      · simp only [digitVal] at hc5 hm
        omega
    simp [parse_time, hbad]

/-- Witness for C5: an unparsable string, an out-of-range hour and an
out-of-range minute all yield `None`. -/
theorem parse_time_total_witness :
    parse_time (some "nonsense") 7 = none ∧
    parse_time (some "24:00") 7 = none ∧
    parse_time (some "08:61") 7 = none :=
  ⟨parse_time_total.2.2.1 "nonsense" 7 (by decide),
   parse_time_total.2.2.2 "24:00" 7 '2' '4' '0' '0' (by decide) (by decide)
     (by decide) (by decide) (by decide) (Or.inl (by decide)),
   parse_time_total.2.2.2 "08:61" 7 '0' '8' '6' '1' (by decide) (by decide)
     (by decide) (by decide) (by decide) (Or.inr (by decide))⟩

/-- **C6.**  Every valid zero-padded 24-hour `HH:MM` string (hour `00`-`23`,
minute `00`-`59` — such strings are exactly `renderHM (60 * h + m)` for
`h < 24`, `m < 60`) parses successfully on any reference date `d`, and
re-rendering the parsed instant with the `%H:%M` format reproduces the
string exactly. -/
theorem parse_render_roundtrip (h m d : Nat) (hh : h < 24) (hm : m < 60) :
    parse_time (some (renderHM (60 * h + m))) d =
      some (d * 1440 + (60 * h + m)) ∧
    renderHM (d * 1440 + (60 * h + m)) = renderHM (60 * h + m) := by
  constructor
  · have hp := parse_render_all h hh m hm
    simp [parse_time, hp]
  · exact renderHM_add d (60 * h + m)

/-- Witness for C6 at `09:30` on reference date 2. -/
theorem parse_render_roundtrip_witness :
    parse_time (some (renderHM (60 * 9 + 30))) 2 =
      some (2 * 1440 + (60 * 9 + 30)) ∧
    renderHM (2 * 1440 + (60 * 9 + 30)) = renderHM (60 * 9 + 30) :=
  parse_render_roundtrip 9 30 2 (by decide) (by decide)

/-- **C7.**  The Trip Deriver is a stable filter: it emits at most one
output row per input row (so the output is never longer than the input),
one row at a time in input order, and concatenating inputs concatenates
outputs — it performs no re-sorting of its own. -/
theorem trips_stable_filter (sched : List Row) (f t : String) (d : Nat) :
    (scheduled_bus_trips sched f t d).length ≤ sched.length ∧
    (∀ (row : Row) (rest : List Row),
      scheduled_bus_trips (row :: rest) f t d =
        (deriveRow f t d row).toList ++ scheduled_bus_trips rest f t d) ∧
    (∀ xs ys : List Row,
      scheduled_bus_trips (xs ++ ys) f t d =
        scheduled_bus_trips xs f t d ++ scheduled_bus_trips ys f t d) := by
  refine ⟨List.length_filterMap_le _ _, ?_, ?_⟩
  · intro row rest
    show List.filterMap _ (row :: rest) = _
    rw [List.filterMap_cons]
    cases hd : deriveRow f t d row <;> simp [scheduled_bus_trips]
  · intro xs ys
    exact List.filterMap_append xs ys _

/-- **C8.**  The stagger shift arithmetic wraps across midnight as pure
time-of-day arithmetic: any raw value whose stripped last five characters
are `23:50`, shifted by `1 * 20` minutes (copy index 1, interval 20), is
re-rendered as the plain string `00:10` — no date component survives. -/
theorem shift_wraps_midnight (s : String)
    (h : pyLast5 (pyStrip s) = "23:50".data) :
    shiftCell (1 * 20) (some s) = some (some "00:10") := by
  have hp : parseHHMM (pyLast5 (pyStrip s)) = some (23, 50) := by
    rw [h]; decide
  rw [show shiftCell (1 * 20) (some s)
      = (match parseHHMM (pyLast5 (pyStrip s)) with
         | none => none
         | some p =>
           some (some (renderHM ((((60 * p.1 + p.2 : Int) + 1 * 20) % 1440).toNat))))
    from rfl, hp]
  decide

/-- Witness for C8 on a raw value with a noisy prefix. -/
theorem shift_wraps_midnight_witness :
    pyLast5 (pyStrip "dep 23:50") = "23:50".data ∧
    shiftCell (1 * 20) (some "dep 23:50") = some (some "00:10") :=
  ⟨by decide, shift_wraps_midnight "dep 23:50" (by decide)⟩

/-- **C9.**  Every row emitted by `scheduled_bus_trips` has a travel time
strictly greater than `0` and at most `1440.0` minutes: the `<=` overnight
correction makes zero or negative travel times impossible. -/
theorem travel_time_pos (sched : List Row) (f t : String) (d : Nat)
    (trip : Trip) (hmem : trip ∈ scheduled_bus_trips sched f t d) :
    0 < trip.travel_time ∧ trip.travel_time ≤ 1440 := by
  obtain ⟨row, -, hd⟩ := List.mem_filterMap.mp hmem
  obtain ⟨dep, arr0, h1, h2, rfl⟩ := deriveRow_eq_some hd
  obtain ⟨hd1, hd2⟩ := parse_time_bound h1
  obtain ⟨ha1, ha2⟩ := parse_time_bound h2
  show 0 < (if arr0 ≤ dep then arr0 + 1440 else arr0) - dep ∧
    (if arr0 ≤ dep then arr0 + 1440 else arr0) - dep ≤ 1440
  split_ifs <;> omega

/-- Witness for C9 on a concrete derived trip. -/
theorem travel_time_pos_witness :
    0 < Trip.travel_time ⟨"08:00", "08:30", 30⟩ ∧
    Trip.travel_time ⟨"08:00", "08:30", 30⟩ ≤ 1440 :=
  travel_time_pos [[("A", some "08:00"), ("B", some "08:30")]] "A" "B" 0
    ⟨"08:00", "08:30", 30⟩ (by decide)

/-- **C10.**  If some non-missing cell in the `stop_from` or `stop_to`
column of the base table is not parseable as `HH:MM` from its last five
trimmed characters, then `stagger_501` with `num_copies ≥ 1` raises (the
bare `strptime` in the shift step propagates `ValueError`, modelled as
`none`) instead of skipping the value. -/
theorem stagger_raises_on_unparsable (sched : List Row) (f t : String)
    (iv : Int) (n d : Nat) (hn : 1 ≤ n)
    (hbad : ∃ row ∈ sched, ∃ p ∈ row, (p.1 = f ∨ p.1 = t) ∧
      ∃ s, p.2 = some s ∧ parseHHMM (pyLast5 (pyStrip s)) = none) :
    stagger_501 sched f t iv n d = none := by
  obtain ⟨row, hrow, p, hp, hft, s, hcell, hparse⟩ := hbad
  have hp2 : (p.1, p.2) ∈ row := by rw [Prod.mk.eta]; exact hp
  have hfail : ∀ sh : Int, shiftTable sh f t sched = none := fun sh =>
    shiftTable_fail hrow hp2 hft hcell hparse sh
  unfold stagger_501
  rw [mkCopies_fail hfail hn]

/-- Witness for C10: one bad departure cell and `num_copies = 1`. -/
theorem stagger_raises_witness :
    stagger_501 [[("A", some "XX:YY"), ("B", some "08:00")]] "A" "B" 10 1 0 =
      none :=
  stagger_raises_on_unparsable _ "A" "B" 10 1 0 (by decide)
    ⟨[("A", some "XX:YY"), ("B", some "08:00")], by decide,
      ("A", some "XX:YY"), by decide, Or.inl rfl, "XX:YY", rfl, by decide⟩
